import Mathlib

set_option autoImplicit false

namespace Scriberr

/-- A JSON/Python number leaf: either a finite value (modelled exactly as a
rational) or one of the three non-finite IEEE values that `math.isnan` /
`math.isinf` detect. The claims here concern only finiteness, never float
rounding, so finite values are carried exactly. -/
inductive JNum where
  | val (q : ℚ)
  | nan
  | inf
  | negInf
deriving DecidableEq

/-- The test `isFinite n` is true exactly when `n` is neither NaN nor ±Infinity,
mirroring `not (math.isnan(x) or math.isinf(x))` in the driver script. -/
def JNum.isFinite : JNum → Bool
  | .val _ => true
  | _ => false

/-- A tree-shaped value as produced by the engine and serialized to JSON:
null, booleans, numbers, strings, sequences and mappings. Mappings keep
field order, like Python dicts and JSON objects. -/
inductive JValue where
  | null
  | bool (b : Bool)
  | num (n : JNum)
  | str (s : String)
  | arr (elems : List JValue)
  | obj (fields : List (String × JValue))

mutual

/-- The function `clean_obj` from the generated driver script (mlx_apapter.go,
generatePythonScript): replaces a non-finite float leaf by `None`/null,
recurses through mappings and sequences, and returns every other value
unchanged. -/
def cleanObj : JValue → JValue
  | .null => .null
  | .bool b => .bool b
  | .num n => if n.isFinite then .num n else .null
  | .str s => .str s
  | .arr elems => .arr (cleanList elems)
  | .obj fields => .obj (cleanFields fields)

/-- The action of `clean_obj` on a sequence: `[clean_obj(v) for v in obj]`. -/
def cleanList : List JValue → List JValue
  | [] => []
  | v :: vs => cleanObj v :: cleanList vs

/-- The action of `clean_obj` on a mapping, cleaning every value. -/
def cleanFields : List (String × JValue) → List (String × JValue)
  | [] => []
  | (k, v) :: fs => (k, cleanObj v) :: cleanFields fs

end

mutual

/-- The test `hasNonFinite v` is true when some numeric leaf anywhere in `v`
is NaN or ±Infinity. -/
def hasNonFinite : JValue → Bool
  | .null => false
  | .bool _ => false
  | .num n => !n.isFinite
  | .str _ => false
  | .arr elems => hasNonFiniteList elems
  | .obj fields => hasNonFiniteFields fields

/-- Some element of the sequence contains a non-finite numeric leaf. -/
def hasNonFiniteList : List JValue → Bool
  | [] => false
  | v :: vs => hasNonFinite v || hasNonFiniteList vs

/-- Some value of the mapping contains a non-finite numeric leaf. -/
def hasNonFiniteFields : List (String × JValue) → Bool
  | [] => false
  | (_, v) :: fs => hasNonFinite v || hasNonFiniteFields fs

end

mutual

theorem hasNonFinite_cleanObj : ∀ v : JValue, hasNonFinite (cleanObj v) = false
  | .null => rfl
  | .bool _ => rfl
  | .num n => by
    by_cases h : n.isFinite <;> simp [cleanObj, hasNonFinite, h]
  | .str _ => rfl
  | .arr elems => by
    simpa [cleanObj, hasNonFinite] using hasNonFiniteList_cleanList elems
  | .obj fields => by
    simpa [cleanObj, hasNonFinite] using hasNonFiniteFields_cleanFields fields

theorem hasNonFiniteList_cleanList : ∀ vs : List JValue,
    hasNonFiniteList (cleanList vs) = false
  | [] => rfl
  | v :: vs => by
    simp [cleanList, hasNonFiniteList, hasNonFinite_cleanObj v,
      hasNonFiniteList_cleanList vs]

theorem hasNonFiniteFields_cleanFields : ∀ fs : List (String × JValue),
    hasNonFiniteFields (cleanFields fs) = false
  | [] => rfl
  | (k, v) :: fs => by
    simp [cleanFields, hasNonFiniteFields, hasNonFinite_cleanObj v,
      hasNonFiniteFields_cleanFields fs]

end

mutual

theorem cleanObj_eq_of_finite : ∀ v : JValue, hasNonFinite v = false → cleanObj v = v
  | .null, _ => rfl
  | .bool _, _ => rfl
  | .num n, h => by
    simp only [hasNonFinite, Bool.not_eq_false'] at h
    simp [cleanObj, h]
  | .str _, _ => rfl
  | .arr elems, h => by
    simp only [hasNonFinite] at h
    simp [cleanObj, cleanList_eq_of_finite elems h]
  | .obj fields, h => by
    simp only [hasNonFinite] at h
    simp [cleanObj, cleanFields_eq_of_finite fields h]

theorem cleanList_eq_of_finite : ∀ vs : List JValue,
    hasNonFiniteList vs = false → cleanList vs = vs
  | [], _ => rfl
  | v :: vs, h => by
    simp only [hasNonFiniteList, Bool.or_eq_false_iff] at h
    simp [cleanList, cleanObj_eq_of_finite v h.1, cleanList_eq_of_finite vs h.2]

theorem cleanFields_eq_of_finite : ∀ fs : List (String × JValue),
    hasNonFiniteFields fs = false → cleanFields fs = fs
  | [], _ => rfl
  | (k, v) :: fs, h => by
    simp only [hasNonFiniteFields, Bool.or_eq_false_iff] at h
    simp [cleanFields, cleanObj_eq_of_finite v h.1, cleanFields_eq_of_finite fs h.2]

end

/-! ### Parameter values and the MLX parameter schema -/

/-- A parameter value in the `params map[string]interface{}` handed to
`Transcribe`: a string, a number, a boolean, or a nil interface value. -/
inductive PValue where
  | str (s : String)
  | num (q : ℚ)
  | bool (b : Bool)
  | null
deriving DecidableEq

/-- Go map lookup for the parameter map (keys of a Go map are unique). -/
def pLookup (params : List (String × PValue)) (k : String) : Option PValue :=
  (params.find? (fun kv => kv.1 == k)).map (fun kv => kv.2)

/-- One entry of `interfaces.ParameterSchema` as used in mlx_apapter.go
lines 47-66. The Go field `Type` is spelled `Typ` because `Type` is reserved
in Lean. -/
structure ParameterSchema where
  Name : String
  Typ : String
  Required : Bool
  Default : PValue
  Options : List String
  Description : String
  Group : String

/-- The MLX adapter's parameter schema, transcribed from NewMLXAdapter
(mlx_apapter.go lines 47-66): optional string "model" with default
"mlx-community/whisper-large-v3-mlx" and optional string "quantization"
with default "4bit". -/
def mlxParameterSchema : List ParameterSchema :=
  [⟨"model", "string", false, .str "mlx-community/whisper-large-v3-mlx",
    ["mlx-community/whisper-large-v3-mlx", "mlx-community/whisper-large-v3-turbo",
     "mlx-community/whisper-base-mlx"],
    "Hugging Face model ID for MLX", "basic"⟩,
   ⟨"quantization", "string", false, .str "4bit",
    ["4bit", "8bit", "none"],
    "Model quantization level", "advanced"⟩]

/-- The schema default value declared for a parameter name. -/
def schemaDefault (name : String) : PValue :=
  match mlxParameterSchema.find? (fun p => p.Name == name) with
  | some p => p.Default
  | none => .null

/-- Modelled from the spec: `BaseAdapter.GetStringParameter` is not under
src/ (only its call sites are). Per the spec, "defaults are substituted for
absent optional keys"; the getter returns the caller's value when it is
present and is a string, and the schema's declared default otherwise. -/
def GetStringParameter (params : List (String × PValue)) (name : String) : String :=
  match pLookup params name with
  | some (.str s) => s
  | _ =>
    match schemaDefault name with
    | .str s => s
    | _ => ""

/-! ### Result shapes and JSON decoding (Go encoding/json semantics) -/

/-- Model of Go `strings.TrimSpace`: drop whitespace characters from both
ends of the string. -/
def TrimSpace (s : String) : String :=
  String.mk (((s.data.dropWhile Char.isWhitespace).reverse.dropWhile
    Char.isWhitespace).reverse)

/-- One element of the anonymous `Segments` slice of the `mlxOutput` struct
in parseResult (mlx_apapter.go lines 172-180). -/
structure GoSegment where
  Start : ℚ
  End : ℚ
  Text : String
deriving DecidableEq

/-- The `mlxOutput` struct that parseResult unmarshals the output artifact
into (mlx_apapter.go lines 172-180). -/
structure MlxOutput where
  Text : String
  Segments : List GoSegment
  Language : String
deriving DecidableEq

/-- An `interfaces.TranscriptSegment` (interfaces package is not under src/;
the fields are those assigned in parseResult: Start, End, Text). -/
structure TranscriptSegment where
  Start : ℚ
  End : ℚ
  Text : String
deriving DecidableEq

/-- An `interfaces.TranscriptResult` (interfaces package is not under src/;
the fields are those assigned in parseResult: Text, Language, ModelUsed,
Segments). Segment times are plain numbers: absence is not representable. -/
structure TranscriptResult where
  Text : String
  Language : String
  ModelUsed : String
  Segments : List TranscriptSegment
deriving DecidableEq

/-- JSON object member lookup with Go `encoding/json` duplicate handling:
a later duplicate key overwrites an earlier one. -/
def jLookup (fields : List (String × JValue)) (k : String) : Option JValue :=
  fields.foldl (fun acc kv => if kv.1 == k then some kv.2 else acc) none

/-- Go `encoding/json` decoding of an object member into a `float64` struct
field: an absent member leaves the zero value 0, a JSON null leaves the
field untouched (hence 0 in a freshly zeroed struct), a finite number is
taken verbatim, and anything else (including the non-finite tokens NaN and
Infinity, which Go's scanner rejects) is an unmarshalling error. -/
def decFloat64Field : Option JValue → Option ℚ
  | none => some 0
  | some .null => some 0
  | some (.num (.val q)) => some q
  | some _ => none

/-- Go `encoding/json` decoding of an object member into a `string` struct
field: absent or null leaves the zero value "", a JSON string is taken
verbatim, anything else is an unmarshalling error. -/
def decStringField : Option JValue → Option String
  | none => some ""
  | some .null => some ""
  | some (.str s) => some s
  | some _ => none

/-- Decode one element of the "segments" array into the anonymous segment
struct: JSON null leaves the struct at its zero value, an object decodes
field-wise, anything else is an unmarshalling error. -/
def decodeSegment : JValue → Option GoSegment
  | .null => some ⟨0, 0, ""⟩
  | .obj fs =>
    match decFloat64Field (jLookup fs "start"), decFloat64Field (jLookup fs "end"),
        decStringField (jLookup fs "text") with
    | some s, some e, some t => some ⟨s, e, t⟩
    | _, _, _ => none
  | _ => none

/-- Decode the "segments" member into the `Segments` slice: absent or null
leaves the nil slice, an array decodes element-wise, anything else is an
unmarshalling error. -/
def decodeSegments : Option JValue → Option (List GoSegment)
  | none => some []
  | some .null => some []
  | some (.arr elems) => elems.mapM decodeSegment
  | some _ => none

/-- Go `json.Unmarshal` of the output artifact into the `mlxOutput` struct:
top-level null leaves the zero struct, a top-level object decodes field-wise
with unknown members ignored, any other top-level value is an error. -/
def decodeMlxOutput : JValue → Option MlxOutput
  | .null => some ⟨"", [], ""⟩
  | .obj fs =>
    match decStringField (jLookup fs "text"), decodeSegments (jLookup fs "segments"),
        decStringField (jLookup fs "language") with
    | some t, some segs, some lang => some ⟨t, segs, lang⟩
    | _, _, _ => none
  | _ => none

/-! ### Errors, the execution environment, and Transcribe -/

/-- Why `cmd.Run()` returned a non-nil error. Per the os/exec contract for
`exec.CommandContext` (Go 1.20 and later), when the context is cancelled or
its deadline expires before the command completes, the child process is
killed and Run's error is the context's error (`context.Canceled` or
`context.DeadlineExceeded`); otherwise the error reports the start failure
or the non-zero exit. -/
inductive RunFailure where
  | exitError
  | ctxCancelled
  | ctxDeadline
deriving DecidableEq

/-- The distinct error exits of Transcribe and parseResult, one constructor
per `return nil, ...` site in mlx_apapter.go lines 121-203. The argument of
`mlxExecutionFailed` is the wrapped `cmd.Run()` error ("MLX execution
failed: %w"). -/
inductive TError where
  | invalidInput
  | tempDirFailed
  | writeScriptFailed
  | mlxExecutionFailed (cause : RunFailure)
  | outputReadFailed
  | outputParseFailed
deriving DecidableEq

/-- The test `errors.Is(err, context.Canceled)` on a Transcribe error: true
exactly when the error chain wraps the context-cancellation cause. -/
def TError.wrapsCancellation : TError → Bool
  | .mlxExecutionFailed .ctxCancelled => true
  | _ => false

/-- The test `errors.Is(err, context.DeadlineExceeded)` on a Transcribe
error: true exactly when the error chain wraps the deadline cause. -/
def TError.wrapsDeadline : TError → Bool
  | .mlxExecutionFailed .ctxDeadline => true
  | _ => false

/-- What the output artifact file holds when parseResult reads it: the file
is absent or unreadable, or holds bytes that are not valid JSON, or holds a
JSON document. -/
inductive RawOutput where
  | absent
  | malformed
  | json (v : JValue)

/-- An `interfaces.AudioInput` (the interfaces package is not under src/);
Transcribe uses its `FilePath` field. -/
structure AudioInput where
  FilePath : String

/-- An `interfaces.ProcessingContext` (the interfaces package is not under
src/); Transcribe uses its `OutputDirectory` field for the log file. -/
structure ProcessingContext where
  OutputDirectory : String

/-- The outcomes of the effectful steps Transcribe performs, fixed ahead of
the call: whether the audio file exists and is readable, whether the scoped
temp directory can be created, whether the driver script write succeeds, how
`cmd.Run()` ends (`none` = success), and what the output artifact holds. -/
structure TranscribeWorld where
  audioExists : Bool
  audioReadable : Bool
  tempDirOk : Bool
  writeScriptOk : Bool
  runResult : Option RunFailure
  rawOutput : RawOutput

/-- The observable side effects of one Transcribe call: temp workspace
created/removed, driver script written, per-job log file opened in the
caller's output directory, subprocess run, child killed by context
cancellation or deadline. -/
structure Effects where
  tempDirCreated : Bool
  tempDirRemoved : Bool
  scriptWritten : Bool
  logFileOpened : Bool
  subprocessStarted : Bool
  childKilled : Bool
deriving DecidableEq

/-- No side effect has happened. -/
def noEffects : Effects := ⟨false, false, false, false, false, false⟩

/-- The supported audio formats declared in the MLX capability descriptor
(mlx_apapter.go line 33). -/
def supportedFormats : List String := ["wav", "mp3", "flac", "m4a"]

/-- The file-name extension of a path: the part after the last dot, empty
when the name has no dot. -/
def extOf (path : String) : String :=
  if path.data.contains '.' then
    String.mk ((path.data.reverse.takeWhile (fun c => c != '.')).reverse)
  else ""

/-- Modelled from the spec: `BaseAdapter.ValidateAudioInput` is not under
src/ (only its call site is). Per the spec, "input must reference an
existing, readable file whose extension/container is in the adapter's
supported-format set, else fails with InvalidInput". -/
def ValidateAudioInput (w : TranscribeWorld) (input : AudioInput) : Option TError :=
  if !w.audioExists then some .invalidInput
  else if !w.audioReadable then some .invalidInput
  else if !(supportedFormats.contains (extOf input.FilePath)) then some .invalidInput
  else none

/-- The `parseResult` method (mlx_apapter.go lines 166-203): read the output
artifact (read failure is returned as the error), unmarshal it into the
`mlxOutput` struct (failure is the "failed to parse MLX output" error), and
convert to the unified shape: top-level Text and Language are copied
verbatim, ModelUsed is the resolved "model" parameter, and each segment
keeps Start and End with its Text passed through `strings.TrimSpace`. The
pair mirrors Go's two return values `(*TranscriptResult, error)`. -/
def parseResult (raw : RawOutput) (params : List (String × PValue)) :
    Option TranscriptResult × Option TError :=
  match raw with
  | .absent => (none, some .outputReadFailed)
  | .malformed => (none, some .outputParseFailed)
  | .json v =>
    match decodeMlxOutput v with
    | none => (none, some .outputParseFailed)
    | some o =>
      (some ⟨o.Text, o.Language, GetStringParameter params "model",
        o.Segments.map (fun seg => ⟨seg.Start, seg.End, TrimSpace seg.Text⟩)⟩, none)

/-- The full return of one Transcribe call: Go's two return values plus the
observable side effects. -/
structure TranscribeOutcome where
  result : Option TranscriptResult
  error : Option TError
  effects : Effects
deriving DecidableEq

/-- The `Transcribe` method (mlx_apapter.go lines 121-164), step for step:
validate the audio input; create the scoped temp directory and defer its
removal (so every later exit records the workspace removed); write the
driver script; resolve the "model" parameter with GetStringParameter (no
validation against the schema happens here); open the per-job log file in
the caller's output directory (its creation error is discarded); run the
engine subprocess via `exec.CommandContext`; on run failure return the
wrapping "MLX execution failed" error; on success hand the artifact to
parseResult. -/
def Transcribe (w : TranscribeWorld) (input : AudioInput)
    (params : List (String × PValue)) (procCtx : ProcessingContext) :
    TranscribeOutcome :=
  match ValidateAudioInput w input with
  | some e => ⟨none, some e, noEffects⟩
  | none =>
    if !w.tempDirOk then ⟨none, some .tempDirFailed, noEffects⟩
    else if !w.writeScriptOk then
      ⟨none, some .writeScriptFailed, ⟨true, true, false, false, false, false⟩⟩
    else
      match w.runResult with
      | some cause =>
        ⟨none, some (.mlxExecutionFailed cause),
          ⟨true, true, true, true, true, cause != .exitError⟩⟩
      | none =>
        let pr := parseResult w.rawOutput params
        ⟨pr.1, pr.2, ⟨true, true, true, true, true, false⟩⟩

/-! ### PrepareEnvironment -/

/-- The distinct error exits of PrepareEnvironment (mlx_apapter.go lines
81-119): the platform guard, the `os.MkdirAll` failure, the "uv init failed"
wrap, and the "failed to install mlx-whisper" wrap. -/
inductive PrepError where
  | unsupportedPlatform
  | mkdirFailed
  | uvInitFailed
  | installFailed
deriving DecidableEq

/-- The outcomes of the effectful steps PrepareEnvironment consults: the
host OS (`runtime.GOOS`), whether the readiness probe succeeds, whether
`os.MkdirAll` succeeds, whether `pyproject.toml` already exists, and whether
the `uv init` / `uv add` commands succeed. -/
structure EnvWorld where
  goos : String
  envReady : Bool
  mkdirOk : Bool
  pyprojectExists : Bool
  uvInitOk : Bool
  uvAddOk : Bool

/-- The install actions PrepareEnvironment may perform: a directory
creation, a `uv init` run, a `uv add` run. -/
structure EnvEffects where
  dirCreated : Bool
  uvInitRun : Bool
  uvAddRun : Bool
deriving DecidableEq

/-- No install action has happened. -/
def noEnvEffects : EnvEffects := ⟨false, false, false⟩

/-- The adapter state PrepareEnvironment mutates: the BaseAdapter
`initialized` flag (unset at construction). -/
structure AdapterState where
  initialized : Bool
deriving DecidableEq

/-- Modelled from the spec: `CheckEnvironmentReady` lives in the BaseAdapter
file, which is not under src/. Per the spec it is a cheap readiness probe
("attempt to resolve the engine's dependency inside its isolated environment
without installing anything") — here, whether `import mlx_whisper` succeeds
inside the environment, an observation of the world. -/
def CheckEnvironmentReady (w : EnvWorld) : Bool := w.envReady

/-- The `PrepareEnvironment` method (mlx_apapter.go lines 81-119), step for
step: fail with the platform error unless `runtime.GOOS == "darwin"`; if the
readiness probe succeeds, set `initialized` and return with no install
action; otherwise `os.MkdirAll`, `uv init` only when `pyproject.toml` is
absent, then `uv add`; any failing step aborts; on success set
`initialized`. -/
def PrepareEnvironment (w : EnvWorld) (s : AdapterState) :
    AdapterState × EnvEffects × Option PrepError :=
  if w.goos != "darwin" then (s, noEnvEffects, some .unsupportedPlatform)
  else if CheckEnvironmentReady w then (⟨true⟩, noEnvEffects, none)
  else if !w.mkdirOk then (s, ⟨true, false, false⟩, some .mkdirFailed)
  else if !w.pyprojectExists && !w.uvInitOk then (s, ⟨true, true, false⟩, some .uvInitFailed)
  else if !w.uvAddOk then (s, ⟨true, !w.pyprojectExists, true⟩, some .installFailed)
  else (⟨true⟩, ⟨true, !w.pyprojectExists, true⟩, none)

/-! ### Concrete values used by witnesses and counterexamples -/

/-- A raw artifact with non-finite leaves nested in a mapping and in a
sequence. -/
def nanArtifact : JValue :=
  .obj [("text", .str "hello"),
        ("segments", .arr [.obj [("start", .num .nan), ("end", .num (.val 1))],
                           .num .inf]),
        ("confidence", .num .negInf)]

/-- A raw artifact all of whose numeric leaves are finite. -/
def finiteArtifact : JValue :=
  .obj [("text", .str "hello"),
        ("segments", .arr [.obj [("start", .num (.val 0)), ("end", .num (.val 1))]])]

/-- The output artifact of the C3 scenario:
text " hi  ", language "en", one segment with start 0, end 1, text " hi ". -/
def scenarioArtifact : JValue :=
  .obj [("text", .str " hi  "), ("language", .str "en"),
        ("segments", .arr [.obj [("start", .num (.val 0)), ("end", .num (.val 1)),
          ("text", .str " hi ")]])]

/-- A two-segment artifact with start ≤ end in each segment and
non-decreasing starts. -/
def orderedArtifact : JValue :=
  .obj [("text", .str "ab"), ("language", .str "en"),
        ("segments", .arr [
          .obj [("start", .num (.val 0)), ("end", .num (.val 1)), ("text", .str "a ")],
          .obj [("start", .num (.val 1)), ("end", .num (.val 2)), ("text", .str " b")]])]

/-! ### Helper lemmas shared between claims -/

/-- In parseResult, at most one of the two Go return values is non-nil. -/
theorem parseResult_none_or_none (raw : RawOutput) (params : List (String × PValue)) :
    (parseResult raw params).1 = none ∨ (parseResult raw params).2 = none := by
  cases raw with
  | absent => exact Or.inl rfl
  | malformed => exact Or.inl rfl
  | json v =>
    cases h : decodeMlxOutput v with
    | none => simp [parseResult, h]
    | some o => simp [parseResult, h]

/-- A world in which every effectful step of Transcribe succeeds and the
engine writes a JSON null artifact (which unmarshals to the zero struct). -/
def wOK : TranscribeWorld := ⟨true, true, true, true, none, .json .null⟩

/-- The error component of parseResult does not depend on the parameter
map (the parameters only enter the success result, through ModelUsed). -/
theorem parseResult_snd_irrel (raw : RawOutput) (params : List (String × PValue)) :
    (parseResult raw params).2 = (parseResult raw []).2 := by
  cases raw with
  | absent => rfl
  | malformed => rfl
  | json v =>
    cases hd : decodeMlxOutput v with
    | none => simp [parseResult, hd]
    | some o => simp [parseResult, hd]

/-- parseResult depends on the parameter map only through the resolved
"model" string. -/
theorem parseResult_params_eq (raw : RawOutput) (p p' : List (String × PValue))
    (h : GetStringParameter p' "model" = GetStringParameter p "model") :
    parseResult raw p' = parseResult raw p := by
  cases raw with
  | absent => rfl
  | malformed => rfl
  | json v =>
    cases hd : decodeMlxOutput v with
    | none => simp [parseResult, hd]
    | some o => simp [parseResult, hd, h]

/-! ### The claims -/

/-- C1: For every raw output artifact, the sanitization pass (`clean_obj` in
the generated driver script) replaces every non-finite float leaf (NaN,
+Infinity, -Infinity) with null, recursing through every nested mapping and
sequence, and leaves every finite number and non-numeric leaf unchanged, so
the sanitized artifact contains no non-finite numeric value anywhere. -/
theorem C1_clean_obj_sanitizes (v : JValue) :
    hasNonFinite (cleanObj v) = false
    ∧ (hasNonFinite v = false → cleanObj v = v)
    ∧ (∀ n : JNum, n.isFinite = false → cleanObj (.num n) = .null) := by
  refine ⟨hasNonFinite_cleanObj v, cleanObj_eq_of_finite v, ?_⟩
  intro n h
  cases n with
  | val q => simp [JNum.isFinite] at h
  | nan => rfl
  | inf => rfl
  | negInf => rfl

/-- Witness for C1: sanitizing an artifact with NaN and ±Infinity leaves
yields a non-finite-free tree, an all-finite artifact is returned unchanged,
and a NaN leaf becomes null. -/
theorem C1_clean_obj_sanitizes_witness :
    hasNonFinite (cleanObj nanArtifact) = false
    ∧ cleanObj finiteArtifact = finiteArtifact
    ∧ cleanObj (.num .nan) = .null :=
  ⟨(C1_clean_obj_sanitizes nanArtifact).1,
   (C1_clean_obj_sanitizes finiteArtifact).2.1 (by decide),
   (C1_clean_obj_sanitizes (.num .nan)).2.2 .nan (by decide)⟩

/-- C3 counterexample: on the scenario artifact the top-level text of the
parsed result is " hi  " — returned verbatim, not trimmed to "hi" — so the
claim that the top-level text equals "hi" is false (parseResult copies
`mlxOutput.Text` without `strings.TrimSpace`; only segment text is
trimmed). -/
theorem C3_counterexample :
    (parseResult (.json scenarioArtifact) []).1 =
      some ⟨" hi  ", "en", "mlx-community/whisper-large-v3-mlx", [⟨0, 1, "hi"⟩]⟩
    ∧ (" hi  " : String) ≠ "hi" := by
  constructor
  · decide
  · decide

/-- C3 amended: for the scenario artifact, parseResult returns a result
whose top-level text is the engine's text " hi  " verbatim (the top-level
text field is not trimmed), whose language is "en", and whose single segment
equals start 0, end 1, text "hi" — only segment text fields are trimmed of
surrounding whitespace. -/
theorem C3_scenario_amended :
    parseResult (.json scenarioArtifact) [] =
      (some ⟨" hi  ", "en", "mlx-community/whisper-large-v3-mlx", [⟨0, 1, "hi"⟩]⟩,
       none) := by
  decide

/-- C9: Transcribe (including its parseResult step) never returns a partial
result alongside an error: on every exit path at most one of the result
pointer and the error is non-nil, so an error exit carries a nil result and
a non-nil result comes with a nil error. -/
theorem C9_no_partial_result (w : TranscribeWorld) (input : AudioInput)
    (params : List (String × PValue)) (procCtx : ProcessingContext) :
    ((Transcribe w input params procCtx).result = none
      ∨ (Transcribe w input params procCtx).error = none)
    ∧ (∀ raw : RawOutput,
        (parseResult raw params).1 = none ∨ (parseResult raw params).2 = none) := by
  refine ⟨?_, fun raw => parseResult_none_or_none raw params⟩
  unfold Transcribe
  split
  · exact Or.inl rfl
  · split
    · exact Or.inl rfl
    · split
      · exact Or.inl rfl
      · split
        · exact Or.inl rfl
        · exact parseResult_none_or_none w.rawOutput params

/-- C10: when a segment's "start" (or "end") member in the output artifact
is JSON null — the sanitized encoding of a non-finite value — Go's
unmarshalling leaves the corresponding float64 field untouched at its zero
value, so parseResult decodes it as the number 0, not as an absent value:
`TranscriptSegment` carries plain numeric Start/End fields and cannot
represent absence. -/
theorem C10_null_timing_zero (e q : ℚ) (t txt lang : String)
    (params : List (String × PValue)) :
    (parseResult (.json (.obj [("text", .str txt), ("language", .str lang),
        ("segments", .arr [.obj [("start", .null), ("end", .num (.val e)),
          ("text", .str t)]])])) params
      = (some ⟨txt, lang, GetStringParameter params "model",
          [⟨0, e, TrimSpace t⟩]⟩, none))
    ∧ (parseResult (.json (.obj [("text", .str txt), ("language", .str lang),
        ("segments", .arr [.obj [("start", .num (.val q)), ("end", .null),
          ("text", .str t)]])])) params
      = (some ⟨txt, lang, GetStringParameter params "model",
          [⟨q, 0, TrimSpace t⟩]⟩, none)) :=
  ⟨rfl, rfl⟩

/-- C5: on a host OS other than darwin, PrepareEnvironment fails with the
unsupported-platform error and mutates no state: the adapter state (in
particular the initialized flag) is returned unchanged, and no directory
creation, init run, or install run happens. -/
theorem C5_unsupported_platform (w : EnvWorld) (s : AdapterState)
    (h : w.goos ≠ "darwin") :
    PrepareEnvironment w s = (s, noEnvEffects, some .unsupportedPlatform) := by
  have hb : (w.goos != "darwin") = true := by
    simp [bne_iff_ne, h]
  unfold PrepareEnvironment
  rw [if_pos (by simp [hb])]

/-- Witness for C5 on a Linux host with the flag unset: the call fails with
the platform error, the flag stays unset, and no install action runs. -/
theorem C5_unsupported_platform_witness :
    PrepareEnvironment ⟨"linux", false, true, false, true, true⟩ ⟨false⟩ =
      (⟨false⟩, noEnvEffects, some .unsupportedPlatform) :=
  C5_unsupported_platform ⟨"linux", false, true, false, true, true⟩ ⟨false⟩ (by decide)

/-- C6: when the audio input file does not exist (or is unreadable, or its
extension is not in the supported-format set), Transcribe fails with the
invalid-input error and performs no side effect at all: in particular no
subprocess is launched and no per-job log file is created in the caller's
output directory. -/
theorem C6_invalid_input (w : TranscribeWorld) (input : AudioInput)
    (params : List (String × PValue)) (procCtx : ProcessingContext)
    (h : w.audioExists = false ∨ w.audioReadable = false
      ∨ supportedFormats.contains (extOf input.FilePath) = false) :
    Transcribe w input params procCtx = ⟨none, some .invalidInput, noEffects⟩ := by
  have hv : ValidateAudioInput w input = some .invalidInput := by
    unfold ValidateAudioInput
    rcases h with h | h | h
    · rw [if_pos (by simp [h])]
    · by_cases h1 : w.audioExists <;>
        simp [h1, h]
    · have h' : extOf input.FilePath ∉ supportedFormats := by
        simpa using h
      by_cases h1 : w.audioExists <;> by_cases h2 : w.audioReadable <;>
        simp [h1, h2, h']
  unfold Transcribe
  rw [hv]

/-- Witness for C6: a world where the audio file is missing (everything
else would succeed) yields the invalid-input error, a nil result, and no
effect — no log file, no subprocess. -/
theorem C6_invalid_input_witness :
    Transcribe ⟨false, true, true, true, none, .json .null⟩ ⟨"a.wav"⟩ [] ⟨"out"⟩ =
      ⟨none, some .invalidInput, noEffects⟩ :=
  C6_invalid_input ⟨false, true, true, true, none, .json .null⟩ ⟨"a.wav"⟩ [] ⟨"out"⟩
    (Or.inl rfl)

/-- C7: when the readiness probe finds the environment usable — in
particular immediately after a successful PrepareEnvironment call, whose
install leaves the probe succeeding — PrepareEnvironment (on darwin) marks
the adapter initialized and returns success with zero install actions: no
directory creation, no init run, no install run; so a second sequential
call on a freshly-ready environment performs zero additional install
actions. -/
theorem C7_idempotent_ready (w : EnvWorld) (s : AdapterState)
    (hos : w.goos = "darwin") (hready : w.envReady = true) :
    PrepareEnvironment w s = (⟨true⟩, noEnvEffects, none) := by
  unfold PrepareEnvironment
  rw [if_neg (by simp [hos]), if_pos (by simp [CheckEnvironmentReady, hready])]

/-- Witness for C7: a darwin host whose probe reports ready, called on the
freshly-constructed (uninitialized) state: the adapter is marked ready with
zero install actions; the same holds for a repeated call on the
already-initialized state. -/
theorem C7_idempotent_ready_witness :
    PrepareEnvironment ⟨"darwin", true, true, true, true, true⟩ ⟨false⟩ =
      (⟨true⟩, noEnvEffects, none)
    ∧ PrepareEnvironment ⟨"darwin", true, true, true, true, true⟩ ⟨true⟩ =
      (⟨true⟩, noEnvEffects, none) :=
  ⟨C7_idempotent_ready ⟨"darwin", true, true, true, true, true⟩ ⟨false⟩ rfl rfl,
   C7_idempotent_ready ⟨"darwin", true, true, true, true, true⟩ ⟨true⟩ rfl rfl⟩

/-- C4: if the context is cancelled while the engine subprocess is running
(the run outcome is the context-cancellation error; per the os/exec contract
the child process is killed), Transcribe returns a nil result with an error
whose chain wraps the cancellation — `errors.Is(err, context.Canceled)` —
and the scoped temp workspace is removed by the deferred cleanup despite the
error; on deadline expiry the error wraps the deadline cause instead. -/
theorem C4_cancellation (w : TranscribeWorld) (input : AudioInput)
    (params : List (String × PValue)) (procCtx : ProcessingContext)
    (hv : ValidateAudioInput w input = none)
    (htd : w.tempDirOk = true) (hws : w.writeScriptOk = true) :
    (w.runResult = some .ctxCancelled →
      Transcribe w input params procCtx =
        ⟨none, some (.mlxExecutionFailed .ctxCancelled),
          ⟨true, true, true, true, true, true⟩⟩
      ∧ (∀ e, (Transcribe w input params procCtx).error = some e →
          e.wrapsCancellation = true))
    ∧ (w.runResult = some .ctxDeadline →
      Transcribe w input params procCtx =
        ⟨none, some (.mlxExecutionFailed .ctxDeadline),
          ⟨true, true, true, true, true, true⟩⟩
      ∧ (∀ e, (Transcribe w input params procCtx).error = some e →
          e.wrapsDeadline = true)) := by
  have hT : ∀ cause : RunFailure, w.runResult = some cause →
      Transcribe w input params procCtx =
        ⟨none, some (.mlxExecutionFailed cause),
          ⟨true, true, true, true, true, cause != .exitError⟩⟩ := by
    intro cause hrun
    unfold Transcribe
    rw [hv, if_neg (by simp [htd]), if_neg (by simp [hws]), hrun]
  constructor
  · intro hrun
    have he := hT .ctxCancelled hrun
    refine ⟨he, ?_⟩
    intro e hee
    rw [he] at hee
    simp only [Option.some_inj] at hee
    rw [← hee]
    rfl
  · intro hrun
    have he := hT .ctxDeadline hrun
    refine ⟨he, ?_⟩
    intro e hee
    rw [he] at hee
    simp only [Option.some_inj] at hee
    rw [← hee]
    rfl

/-- Witness for C4: a world where validation, workspace creation and script
write succeed and the run ends in context cancellation: the call returns a
nil result, an error wrapping the cancellation, the child is recorded
killed, and the workspace is removed. -/
theorem C4_cancellation_witness :
    Transcribe ⟨true, true, true, true, some .ctxCancelled, .json .null⟩
        ⟨"a.wav"⟩ [] ⟨"out"⟩ =
      ⟨none, some (.mlxExecutionFailed .ctxCancelled),
        ⟨true, true, true, true, true, true⟩⟩ :=
  ((C4_cancellation ⟨true, true, true, true, some .ctxCancelled, .json .null⟩
    ⟨"a.wav"⟩ [] ⟨"out"⟩ (by decide) rfl rfl).1 rfl).1

/-- C8: parseResult preserves segment order and timing values verbatim: for
every artifact whose decoded segment list has start ≤ end within each
segment and non-decreasing starts across segments, the returned result's
segment list has the same length, carries the same Start and End at each
position, and satisfies the same two ordering properties. -/
theorem C8_order_preserved (v : JValue) (params : List (String × PValue))
    (o : MlxOutput) (hdec : decodeMlxOutput v = some o)
    (hse : ∀ s ∈ o.Segments, s.Start ≤ s.End)
    (hmono : o.Segments.Chain' (fun a b => a.Start ≤ b.Start)) :
    ∃ r : TranscriptResult,
      parseResult (.json v) params = (some r, none)
      ∧ r.Segments.length = o.Segments.length
      ∧ (∀ (i : ℕ) (hi : i < r.Segments.length) (ho : i < o.Segments.length),
          (r.Segments.get ⟨i, hi⟩).Start = (o.Segments.get ⟨i, ho⟩).Start
          ∧ (r.Segments.get ⟨i, hi⟩).End = (o.Segments.get ⟨i, ho⟩).End)
      ∧ (∀ s ∈ r.Segments, s.Start ≤ s.End)
      ∧ r.Segments.Chain' (fun a b => a.Start ≤ b.Start) := by
  refine ⟨⟨o.Text, o.Language, GetStringParameter params "model",
    o.Segments.map (fun seg => ⟨seg.Start, seg.End, TrimSpace seg.Text⟩)⟩,
    ?_, ?_, ?_, ?_, ?_⟩
  · simp [parseResult, hdec]
  · simp
  · intro i hi ho
    simp [List.get_map]
  · intro s hs
    rcases List.mem_map.mp hs with ⟨a, ha, rfl⟩
    exact hse a ha
  · rw [List.chain'_map]
    exact hmono

/-- Witness for C8 on a two-segment artifact with 0 ≤ 1 and 1 ≤ 2. -/
theorem C8_order_preserved_witness :
    ∃ r : TranscriptResult,
      parseResult (.json orderedArtifact) [] = (some r, none)
      ∧ r.Segments.length = 2
      ∧ (∀ s ∈ r.Segments, s.Start ≤ s.End)
      ∧ r.Segments.Chain' (fun a b => a.Start ≤ b.Start) := by
  obtain ⟨r, h1, h2, h3, h4, h5⟩ :=
    C8_order_preserved orderedArtifact []
      ⟨"ab", [⟨0, 1, "a "⟩, ⟨1, 2, " b"⟩], "en"⟩ (by decide) (by decide)
      (by norm_num [List.chain'_cons])
  exact ⟨r, h1, by rw [h2]; rfl, h4, h5⟩

/-- C2 counterexample: a parameter map whose "model" value is a number —
a type mismatch against the schema's declared string type — does not make
Transcribe fail: in a world where every effectful step succeeds the call
returns a populated result and a nil error (the mismatched value is silently
ignored in favor of the schema default), where the claim demands an
InvalidParameter failure. -/
theorem C2_counterexample :
    Transcribe wOK ⟨"a.wav"⟩ [("model", .num 3)] ⟨"out"⟩ =
      ⟨some ⟨"", "", "mlx-community/whisper-large-v3-mlx", []⟩, none,
        ⟨true, true, true, true, true, false⟩⟩ := by
  decide

/-- C2 amended: Transcribe performs no validation of the parameter map
against the ParameterSchema — no missing-required-key or type-mismatch
failure exists (the schema declares no required key, and the error and
effects of a call are independent of the parameter map). Unknown keys are
ignored: the call depends on the map only through its "model" entry. The
schema default is substituted for an absent optional "model" key by
GetStringParameter. -/
theorem C2_params_resolution (w : TranscribeWorld) (input : AudioInput)
    (params : List (String × PValue)) (procCtx : ProcessingContext) :
    (Transcribe w input params procCtx).error = (Transcribe w input [] procCtx).error
    ∧ (Transcribe w input params procCtx).effects
      = (Transcribe w input [] procCtx).effects
    ∧ (∀ params' : List (String × PValue),
        pLookup params' "model" = pLookup params "model" →
        Transcribe w input params' procCtx = Transcribe w input params procCtx)
    ∧ (pLookup params "model" = none →
        GetStringParameter params "model" = "mlx-community/whisper-large-v3-mlx") := by
  have hcong : ∀ p p' : List (String × PValue),
      pLookup p' "model" = pLookup p "model" →
      Transcribe w input p' procCtx = Transcribe w input p procCtx := by
    intro p p' hl
    have hg : GetStringParameter p' "model" = GetStringParameter p "model" := by
      unfold GetStringParameter
      rw [hl]
    unfold Transcribe
    cases hv : ValidateAudioInput w input with
    | some e => rfl
    | none =>
      cases htd : w.tempDirOk <;> cases hws : w.writeScriptOk <;>
        cases hrun : w.runResult <;>
          simp [htd, hws, hrun, parseResult_params_eq w.rawOutput p p' hg]
  refine ⟨?_, ?_, hcong params, ?_⟩
  · unfold Transcribe
    cases hv : ValidateAudioInput w input with
    | some e => rfl
    | none =>
      cases htd : w.tempDirOk <;> cases hws : w.writeScriptOk <;>
        cases hrun : w.runResult <;>
          simp [htd, hws, hrun, parseResult_snd_irrel w.rawOutput params]
  · unfold Transcribe
    cases hv : ValidateAudioInput w input with
    | some e => rfl
    | none =>
      cases htd : w.tempDirOk <;> cases hws : w.writeScriptOk <;>
        cases hrun : w.runResult <;>
          simp [htd, hws, hrun]
  · intro hl
    unfold GetStringParameter
    rw [hl]
    rfl

/-- Witness for C2 amended: a map holding only an unknown key behaves like
the empty map, and the "model" default is substituted for it. -/
theorem C2_params_resolution_witness :
    Transcribe wOK ⟨"a.wav"⟩ [("x", PValue.bool true)] ⟨"out"⟩ =
      Transcribe wOK ⟨"a.wav"⟩ [] ⟨"out"⟩
    ∧ GetStringParameter [("x", PValue.bool true)] "model" =
      "mlx-community/whisper-large-v3-mlx" :=
  ⟨(C2_params_resolution wOK ⟨"a.wav"⟩ [] ⟨"out"⟩).2.2.1
      [("x", PValue.bool true)] (by decide),
   (C2_params_resolution wOK ⟨"a.wav"⟩ [("x", PValue.bool true)] ⟨"out"⟩).2.2.2
      (by decide)⟩

end Scriberr
